import Mathlib

/-
Verification of the skapa parametric-box geometry pipeline
(src/src/model/manifold.ts, axis-solver variant).

All numeric values are modelled with exact rationals (ℚ).  The JavaScript
source computes with IEEE doubles; the claims under study are statements of
exact arithmetic, so the shallow embedding uses ℚ throughout.  The constant
Math.SQRT2 is embedded as the exact rational value of its double
representation.
-/

namespace Skapa

/-- `Math.max(1, Math.floor((usable + g) / (holeSpan + g)))` — the achievable
hole count for a trial gap `g`, as computed inside
`computeCenteredAxisPositions` (manifold.ts lines 159-162 and 171-174). -/
def countAt (usable holeSpan g : ℚ) : ℕ :=
  max 1 (Int.toNat ⌊(usable + g) / (holeSpan + g)⌋)

/-- The gap-growing `while (chosenCount > maxAxisCount)` loop of
`computeCenteredAxisPositions` (manifold.ts lines 168-178): each iteration
increases the trial gap by 1 mm, recomputes the achievable count, and stops
either when the count is at or below the cap or when the trial gap passes
the 30 mm safety ceiling.  `g` is the current chosen gap (equal to the trial
gap of the previous iteration) and `c` the current chosen count. -/
def capLoop (usable holeSpan : ℚ) (cap : ℕ) (g : ℚ) (c : ℕ) : ℕ × ℚ :=
  if c ≤ cap then (c, g)
  else
    let t := g + 1
    let c2 := countAt usable holeSpan t
    if 30 < t then (c2, t)
    else capLoop usable holeSpan cap t c2
termination_by (⌈(31 : ℚ) - g⌉).toNat
decreasing_by
  rename_i _hcap hle
  have hg : g ≤ 29 := by
    have h := not_lt.mp hle
    have h2 : g + 1 ≤ 30 := h
    linarith
  have h2 : (2 : ℚ) ≤ 31 - g := by linarith
  have h2i : (2 : ℤ) ≤ ⌈(31 : ℚ) - g⌉ := by
    have := Int.le_ceil ((31 : ℚ) - g)
    exact_mod_cast h2.trans this
  have heq : ⌈(31 : ℚ) - (g + 1)⌉ = ⌈(31 : ℚ) - g⌉ - 1 := by
    rw [show (31 : ℚ) - (g + 1) = (31 - g) + (-1 : ℤ) by push_cast; ring,
      Int.ceil_add_int]
    omega
  rw [heq]
  omega

/-- Selection of the final `(chosenCount, chosenGap)` pair in
`computeCenteredAxisPositions` (manifold.ts lines 159-179): start from the
count achievable at the minimum gap and, when a cap is supplied and
exceeded, run the gap-growing loop. -/
def chooseCountGap (usable holeSpan minGap : ℚ) (cap : Option ℕ) : ℕ × ℚ :=
  let c0 := countAt usable holeSpan minGap
  match cap with
  | none => (c0, minGap)
  | some c => capLoop usable holeSpan c minGap c0

/-- Return type of the axis solvers: the list of hole center coordinates
and the final (leftover-redistributed) gap between adjacent holes. -/
structure AxisResult where
  positions : List ℚ
  gapBetween : ℚ
  deriving DecidableEq, Repr

/-- `computeCenteredAxisPositions` (manifold.ts lines 149-193): evenly
distributed hole center positions along an axis centered at 0. -/
def computeCenteredAxisPositions (totalSpan holeSpan edgeClearance minGap : ℚ)
    (maxAxisCount : Option ℕ) : AxisResult :=
  let usable := totalSpan - 2 * edgeClearance
  if usable < holeSpan then ⟨[], 0⟩
  else
    let cg := chooseCountGap usable holeSpan minGap maxAxisCount
    let chosenCount := cg.1
    let chosenGap := cg.2
    let baseUsed := (chosenCount : ℚ) * holeSpan + ((chosenCount : ℚ) - 1) * chosenGap
    let leftover := max 0 (usable - baseUsed)
    let gapBetween :=
      if 1 < chosenCount then chosenGap + leftover / ((chosenCount : ℚ) - 1) else 0
    let start := -totalSpan / 2 + edgeClearance + holeSpan / 2
    let step := holeSpan + gapBetween
    ⟨(List.range chosenCount).map (fun i : ℕ => start + (i : ℚ) * step), gapBetween⟩

/-- `computeVerticalPositions` (manifold.ts lines 196-239): identical to
`computeCenteredAxisPositions` except that positions start at
`edgeClearance + holeSpan/2` (measured from z = 0 up to z = height) instead
of being centered around 0. -/
def computeVerticalPositions (totalSpan holeSpan edgeClearance minGap : ℚ)
    (maxAxisCount : Option ℕ) : AxisResult :=
  let usable := totalSpan - 2 * edgeClearance
  if usable < holeSpan then ⟨[], 0⟩
  else
    let cg := chooseCountGap usable holeSpan minGap maxAxisCount
    let chosenCount := cg.1
    let chosenGap := cg.2
    let baseUsed := (chosenCount : ℚ) * holeSpan + ((chosenCount : ℚ) - 1) * chosenGap
    let leftover := max 0 (usable - baseUsed)
    let gapBetween :=
      if 1 < chosenCount then chosenGap + leftover / ((chosenCount : ℚ) - 1) else 0
    let start := edgeClearance + holeSpan / 2
    let step := holeSpan + gapBetween
    ⟨(List.range chosenCount).map (fun i : ℕ => start + (i : ℚ) * step), gapBetween⟩

lemma countAt_one_le (usable holeSpan g : ℚ) : 1 ≤ countAt usable holeSpan g :=
  le_max_left _ _

lemma countAt_used_le (usable holeSpan g : ℚ) (hu : holeSpan ≤ usable)
    (hg : 0 < holeSpan + g) :
    (countAt usable holeSpan g : ℚ) * holeSpan +
      ((countAt usable holeSpan g : ℚ) - 1) * g ≤ usable := by
  have hq1 : (1 : ℚ) ≤ (usable + g) / (holeSpan + g) := by
    rw [le_div_iff₀ hg]; linarith
  have hfl : 1 ≤ ⌊(usable + g) / (holeSpan + g)⌋ := by
    rw [Int.le_floor]; exact_mod_cast hq1
  have hcount : (countAt usable holeSpan g : ℤ) = ⌊(usable + g) / (holeSpan + g)⌋ := by
    unfold countAt; omega
  have hle : ((⌊(usable + g) / (holeSpan + g)⌋ : ℚ)) ≤ (usable + g) / (holeSpan + g) :=
    Int.floor_le _
  have hmul : ((⌊(usable + g) / (holeSpan + g)⌋ : ℚ)) * (holeSpan + g) ≤ usable + g := by
    have h := mul_le_mul_of_nonneg_right hle hg.le
    rwa [div_mul_cancel₀ _ hg.ne'] at h
  have hcq : (countAt usable holeSpan g : ℚ) = ((⌊(usable + g) / (holeSpan + g)⌋ : ℚ)) := by
    exact_mod_cast hcount
  rw [hcq]
  nlinarith [hmul]

lemma capLoop_spec (usable holeSpan : ℚ) (cap : ℕ) (g : ℚ) (c : ℕ)
    (hu : holeSpan ≤ usable) (hg : 0 < holeSpan + g) (h1 : 1 ≤ c)
    (h2 : (c : ℚ) * holeSpan + ((c : ℚ) - 1) * g ≤ usable) :
    1 ≤ (capLoop usable holeSpan cap g c).1 ∧
      ((capLoop usable holeSpan cap g c).1 : ℚ) * holeSpan +
        (((capLoop usable holeSpan cap g c).1 : ℚ) - 1) *
          (capLoop usable holeSpan cap g c).2 ≤ usable ∧
      g ≤ (capLoop usable holeSpan cap g c).2 := by
  revert hu hg h1 h2
  induction g, c using capLoop.induct usable holeSpan cap with
  | case1 g c hle =>
      intro hu hg h1 h2
      rw [capLoop.eq_def]
      simp only [if_pos hle]
      exact ⟨h1, h2, le_refl g⟩
  | case2 g c hle t ht =>
      intro hu hg h1 h2
      rw [capLoop.eq_def]
      simp only [if_neg hle, if_pos ht]
      refine ⟨countAt_one_le _ _ _, ?_, by linarith⟩
      exact countAt_used_le usable holeSpan (g + 1) hu (by linarith)
  | case3 g c hle t c2 ht ih =>
      intro hu hg h1 h2
      rw [capLoop.eq_def]
      simp only [if_neg hle, if_neg ht]
      have hg2 : 0 < holeSpan + (g + 1) := by linarith
      have hres := ih hu hg2 (countAt_one_le _ _ _) (countAt_used_le usable holeSpan (g + 1) hu hg2)
      have h3 : g ≤ g + 1 := by linarith
      exact ⟨hres.1, hres.2.1, le_trans h3 hres.2.2⟩

lemma capLoop_le_or_gap (usable holeSpan : ℚ) (cap : ℕ) (g : ℚ) (c : ℕ) :
    (capLoop usable holeSpan cap g c).1 ≤ cap ∨
      30 < (capLoop usable holeSpan cap g c).2 := by
  induction g, c using capLoop.induct usable holeSpan cap with
  | case1 g c hle =>
      rw [capLoop.eq_def]
      simp only [if_pos hle]
      exact Or.inl hle
  | case2 g c hle t ht =>
      rw [capLoop.eq_def]
      simp only [if_neg hle, if_pos ht]
      exact Or.inr ht
  | case3 g c hle t c2 ht ih =>
      rw [capLoop.eq_def]
      simp only [if_neg hle, if_neg ht]
      exact ih

lemma chooseCountGap_spec (usable holeSpan minGap : ℚ) (cap : Option ℕ)
    (hu : holeSpan ≤ usable) (hg : 0 < holeSpan + minGap) :
    1 ≤ (chooseCountGap usable holeSpan minGap cap).1 ∧
      ((chooseCountGap usable holeSpan minGap cap).1 : ℚ) * holeSpan +
        (((chooseCountGap usable holeSpan minGap cap).1 : ℚ) - 1) *
          (chooseCountGap usable holeSpan minGap cap).2 ≤ usable ∧
      minGap ≤ (chooseCountGap usable holeSpan minGap cap).2 := by
  cases cap with
  | none =>
      exact ⟨countAt_one_le _ _ _, countAt_used_le usable holeSpan minGap hu hg,
        le_refl _⟩
  | some c =>
      exact capLoop_spec usable holeSpan c minGap _ hu hg (countAt_one_le _ _ _)
        (countAt_used_le usable holeSpan minGap hu hg)

lemma chooseCountGap_le_or_gap (usable holeSpan minGap : ℚ) (c : ℕ) :
    (chooseCountGap usable holeSpan minGap (some c)).1 ≤ c ∨
      30 < (chooseCountGap usable holeSpan minGap (some c)).2 :=
  capLoop_le_or_gap usable holeSpan c minGap _

/-- The final `gapBetween` value computed by `computeCenteredAxisPositions`
in its non-empty branch (manifold.ts lines 181-183), as a standalone
function of the solver inputs. -/
def axisGap (S F E G : ℚ) (cap : Option ℕ) : ℚ :=
  let usable := S - 2 * E
  let c := (chooseCountGap usable F G cap).1
  let g := (chooseCountGap usable F G cap).2
  let leftover := max 0 (usable - ((c : ℚ) * F + ((c : ℚ) - 1) * g))
  if 1 < c then g + leftover / ((c : ℚ) - 1) else 0

lemma centered_empty (S F E G : ℚ) (cap : Option ℕ) (h : S - 2 * E < F) :
    computeCenteredAxisPositions S F E G cap = ⟨[], 0⟩ := by
  simp only [computeCenteredAxisPositions, if_pos h]

lemma centered_eq_of_fit (S F E G : ℚ) (cap : Option ℕ) (h : ¬ (S - 2 * E < F)) :
    computeCenteredAxisPositions S F E G cap =
      ⟨(List.range (chooseCountGap (S - 2 * E) F G cap).1).map
          (fun i : ℕ => (-S / 2 + E + F / 2) + (i : ℚ) * (F + axisGap S F E G cap)),
        axisGap S F E G cap⟩ := by
  simp only [computeCenteredAxisPositions, axisGap, if_neg h]

lemma axisGap_spec (S F E G : ℚ) (cap : Option ℕ)
    (_hF : 0 ≤ F) (hG : 0 ≤ G) (hFG : 0 < F + G) (hfit : F ≤ S - 2 * E) :
    0 ≤ axisGap S F E G cap ∧
      (1 < (chooseCountGap (S - 2 * E) F G cap).1 → G ≤ axisGap S F E G cap) ∧
      (-S / 2 + E + F / 2) +
          (((chooseCountGap (S - 2 * E) F G cap).1 : ℚ) - 1) *
            (F + axisGap S F E G cap) ≤ S / 2 - E - F / 2 := by
  obtain ⟨h1, h2, h3⟩ := chooseCountGap_spec (S - 2 * E) F G cap hfit hFG
  set c := (chooseCountGap (S - 2 * E) F G cap).1 with hc
  set g := (chooseCountGap (S - 2 * E) F G cap).2 with hg
  have hg0 : 0 ≤ g := le_trans hG h3
  by_cases hc1 : 1 < c
  · have hc1q : (1 : ℚ) < (c : ℚ) := by exact_mod_cast hc1
    have hcm1 : (0 : ℚ) < (c : ℚ) - 1 := by linarith
    have hLeq : max 0 ((S - 2 * E) - ((c : ℚ) * F + ((c : ℚ) - 1) * g)) =
        (S - 2 * E) - ((c : ℚ) * F + ((c : ℚ) - 1) * g) :=
      max_eq_right (by linarith)
    have hgap : axisGap S F E G cap =
        g + ((S - 2 * E) - ((c : ℚ) * F + ((c : ℚ) - 1) * g)) / ((c : ℚ) - 1) := by
      simp only [axisGap, ← hc, ← hg, if_pos hc1, hLeq]
    have hdiv : 0 ≤ ((S - 2 * E) - ((c : ℚ) * F + ((c : ℚ) - 1) * g)) / ((c : ℚ) - 1) :=
      div_nonneg (by linarith) hcm1.le
    refine ⟨by rw [hgap]; linarith [hdiv], fun _ => by rw [hgap]; linarith [hdiv], ?_⟩
    rw [hgap]
    have hexp : ((c : ℚ) - 1) *
        (F + (g + ((S - 2 * E) - ((c : ℚ) * F + ((c : ℚ) - 1) * g)) / ((c : ℚ) - 1))) =
        ((c : ℚ) - 1) * (F + g) + ((S - 2 * E) - ((c : ℚ) * F + ((c : ℚ) - 1) * g)) := by
      field_simp
      ring
    rw [hexp]
    ring_nf
    nlinarith [h2]
  · have hc1' : c = 1 := le_antisymm (not_lt.mp hc1) h1
    have hgap : axisGap S F E G cap = 0 := by
      simp only [axisGap, ← hc, ← hg, if_neg hc1]
    refine ⟨le_of_eq hgap.symm, fun h => absurd h hc1, ?_⟩
    rw [hgap, hc1']
    push_cast
    linarith

lemma mem_range_map {α : Type} (f : ℕ → α) (n : ℕ) (p : α)
    (hp : p ∈ (List.range n).map f) : ∃ i, i < n ∧ p = f i := by
  rw [List.mem_map] at hp
  obtain ⟨i, hi, he⟩ := hp
  exact ⟨i, List.mem_range.mp hi, he.symm⟩

lemma centered_mem_bounds (S F E G : ℚ) (cap : Option ℕ)
    (hF : 0 ≤ F) (hG : 0 ≤ G) (hFG : 0 < F + G) :
    ∀ p ∈ (computeCenteredAxisPositions S F E G cap).positions,
      -S / 2 + E ≤ p ∧ p ≤ S / 2 - E := by
  by_cases hfit : S - 2 * E < F
  · rw [centered_empty S F E G cap hfit]
    intro p hp
    simp at hp
  · intro p hp
    have hfit' : F ≤ S - 2 * E := not_lt.mp hfit
    obtain ⟨hgb0, _, hlast⟩ := axisGap_spec S F E G cap hF hG hFG hfit'
    obtain ⟨h1, _, _⟩ := chooseCountGap_spec (S - 2 * E) F G cap hfit' hFG
    have hp2 : p ∈ (List.range (chooseCountGap (S - 2 * E) F G cap).1).map
        (fun i : ℕ => (-S / 2 + E + F / 2) + (i : ℚ) * (F + axisGap S F E G cap)) := by
      rw [centered_eq_of_fit S F E G cap hfit] at hp
      exact hp
    obtain ⟨i, hi, rfl⟩ := mem_range_map _ _ _ hp2
    have hstep : 0 ≤ F + axisGap S F E G cap := by linarith
    have hi' : (i : ℚ) ≤ ((chooseCountGap (S - 2 * E) F G cap).1 : ℚ) - 1 := by
      have hii : i + 1 ≤ (chooseCountGap (S - 2 * E) F G cap).1 := hi
      have hiq : (i : ℚ) + 1 ≤ ((chooseCountGap (S - 2 * E) F G cap).1 : ℚ) := by
        exact_mod_cast hii
      linarith
    constructor
    · have hnn : 0 ≤ (i : ℚ) * (F + axisGap S F E G cap) :=
        mul_nonneg (Nat.cast_nonneg i) hstep
      linarith
    · have hmono : (i : ℚ) * (F + axisGap S F E G cap) ≤
          (((chooseCountGap (S - 2 * E) F G cap).1 : ℚ) - 1) *
            (F + axisGap S F E G cap) :=
        mul_le_mul_of_nonneg_right hi' hstep
      linarith

lemma vertical_eq_map (S F E G : ℚ) (cap : Option ℕ) :
    computeVerticalPositions S F E G cap =
      ⟨(computeCenteredAxisPositions S F E G cap).positions.map (fun p => p + S / 2),
        (computeCenteredAxisPositions S F E G cap).gapBetween⟩ := by
  by_cases h : S - 2 * E < F
  · simp only [computeVerticalPositions, computeCenteredAxisPositions, if_pos h]
    rfl
  · simp only [computeVerticalPositions, computeCenteredAxisPositions, if_neg h]
    simp only [AxisResult.mk.injEq, List.map_map]
    refine ⟨?_, trivial⟩
    apply List.map_congr_left
    intro i _
    simp only [Function.comp_apply]
    ring

/-- Claim C1: for every span S, hole footprint F, edge clearance E and
minimum gap G (footprint and gap being nonnegative lengths, not both zero)
with S - 2E ≥ F, and any optional axis cap, the axis layout solver returns
at least one center position, every returned position lies within
[-S/2+E, S/2-E], the first position is -S/2 + E + F/2, and consecutive
positions differ by exactly F plus the final (leftover-redistributed) gap,
which is at least F + G. -/
theorem axis_solver_correct (S F E G : ℚ) (cap : Option ℕ)
    (hF : 0 ≤ F) (hG : 0 ≤ G) (hFG : 0 < F + G) (hfit : F ≤ S - 2 * E) :
    (computeCenteredAxisPositions S F E G cap).positions ≠ [] ∧
      (computeCenteredAxisPositions S F E G cap).positions.head? =
        some (-S / 2 + E + F / 2) ∧
      (∀ p ∈ (computeCenteredAxisPositions S F E G cap).positions,
        -S / 2 + E ≤ p ∧ p ≤ S / 2 - E) ∧
      (∀ i, ∀ hi : i + 1 < (computeCenteredAxisPositions S F E G cap).positions.length,
        (computeCenteredAxisPositions S F E G cap).positions[i + 1] -
            (computeCenteredAxisPositions S F E G cap).positions[i] =
          F + (computeCenteredAxisPositions S F E G cap).gapBetween ∧
        F + G ≤ (computeCenteredAxisPositions S F E G cap).positions[i + 1] -
            (computeCenteredAxisPositions S F E G cap).positions[i]) := by
  have hnfit : ¬ (S - 2 * E < F) := not_lt.mpr hfit
  have heq := centered_eq_of_fit S F E G cap hnfit
  obtain ⟨h1, _, _⟩ := chooseCountGap_spec (S - 2 * E) F G cap hfit hFG
  obtain ⟨hgb0, hgbG, _⟩ := axisGap_spec S F E G cap hF hG hFG hfit
  have hpos : (computeCenteredAxisPositions S F E G cap).positions =
      (List.range (chooseCountGap (S - 2 * E) F G cap).1).map
        (fun i : ℕ => (-S / 2 + E + F / 2) + (i : ℚ) * (F + axisGap S F E G cap)) := by
    rw [heq]
  have hgb : (computeCenteredAxisPositions S F E G cap).gapBetween =
      axisGap S F E G cap := by
    rw [heq]
  have hlen : (computeCenteredAxisPositions S F E G cap).positions.length =
      (chooseCountGap (S - 2 * E) F G cap).1 := by
    rw [hpos]; simp
  refine ⟨?_, ?_, centered_mem_bounds S F E G cap hF hG hFG, ?_⟩
  · intro hnil
    have h0 : (chooseCountGap (S - 2 * E) F G cap).1 = 0 := by
      rw [← hlen, hnil]; rfl
    omega
  · obtain ⟨k, hk⟩ : ∃ k, (chooseCountGap (S - 2 * E) F G cap).1 = k + 1 :=
      ⟨(chooseCountGap (S - 2 * E) F G cap).1 - 1, by omega⟩
    rw [hpos, hk, List.range_succ_eq_map]
    simp
  · intro i hi
    have hic : i + 1 < (chooseCountGap (S - 2 * E) F G cap).1 := by omega
    have e1 : (computeCenteredAxisPositions S F E G cap).positions[i + 1] =
        (-S / 2 + E + F / 2) + ((i : ℚ) + 1) * (F + axisGap S F E G cap) := by
      rw [List.getElem_of_eq hpos hi]
      simp only [List.getElem_map, List.getElem_range]
      push_cast
      ring
    have hi0 : i < (computeCenteredAxisPositions S F E G cap).positions.length := by
      omega
    have e0 : (computeCenteredAxisPositions S F E G cap).positions[i] =
        (-S / 2 + E + F / 2) + (i : ℚ) * (F + axisGap S F E G cap) := by
      rw [List.getElem_of_eq hpos hi0]
      simp only [List.getElem_map, List.getElem_range]
    have hdiff : ((-S / 2 + E + F / 2) + ((i : ℚ) + 1) * (F + axisGap S F E G cap)) -
        ((-S / 2 + E + F / 2) + (i : ℚ) * (F + axisGap S F E G cap)) =
        F + axisGap S F E G cap := by ring
    rw [e1, e0, hgb, hdiff]
    refine ⟨rfl, ?_⟩
    have hc2 : 1 < (chooseCountGap (S - 2 * E) F G cap).1 := by omega
    have := hgbG hc2
    linarith

/-- Witness for C1 at span 20, footprint 7, clearance 3, minimum gap 4,
no cap supplied. -/
theorem axis_solver_correct_witness :
    (computeCenteredAxisPositions 20 7 3 4 none).positions ≠ [] ∧
      (computeCenteredAxisPositions 20 7 3 4 none).positions.head? =
        some (-20 / 2 + 3 + 7 / 2) ∧
      (∀ p ∈ (computeCenteredAxisPositions 20 7 3 4 none).positions,
        -20 / 2 + 3 ≤ p ∧ p ≤ 20 / 2 - 3) ∧
      (∀ i, ∀ hi : i + 1 < (computeCenteredAxisPositions 20 7 3 4 none).positions.length,
        (computeCenteredAxisPositions 20 7 3 4 none).positions[i + 1] -
            (computeCenteredAxisPositions 20 7 3 4 none).positions[i] =
          7 + (computeCenteredAxisPositions 20 7 3 4 none).gapBetween ∧
        7 + 4 ≤ (computeCenteredAxisPositions 20 7 3 4 none).positions[i + 1] -
            (computeCenteredAxisPositions 20 7 3 4 none).positions[i]) :=
  axis_solver_correct 20 7 3 4 none (by norm_num) (by norm_num) (by norm_num)
    (by norm_num)

/-- Claim C3: whenever S - 2E < F the axis layout solver returns an empty
list of positions. -/
theorem axis_solver_empty (S F E G : ℚ) (cap : Option ℕ) (h : S - 2 * E < F) :
    (computeCenteredAxisPositions S F E G cap).positions = [] := by
  rw [centered_empty S F E G cap h]

/-- Witness for C3 at span 10, footprint 7, clearance 3, minimum gap 4. -/
theorem axis_solver_empty_witness :
    ((10 : ℚ) - 2 * 3 < 7) ∧
      (computeCenteredAxisPositions 10 7 3 4 none).positions = [] :=
  ⟨by norm_num, axis_solver_empty 10 7 3 4 none (by norm_num)⟩

/-- Claim C2 (amended): with a supplied cap C the solver returns at most C
positions, unless gap growth is stopped by the 30 mm safety ceiling first,
in which case the final chosen gap exceeds 30 mm and the returned count is
the achievable count at that gap, which may exceed C. -/
theorem axis_cap_respected_or_ceiling (S F E G : ℚ) (C : ℕ) :
    (computeCenteredAxisPositions S F E G (some C)).positions.length ≤ C ∨
      30 < (chooseCountGap (S - 2 * E) F G (some C)).2 := by
  by_cases h : S - 2 * E < F
  · left
    rw [centered_empty S F E G (some C) h]
    simp
  · rcases chooseCountGap_le_or_gap (S - 2 * E) F G C with hle | hgap
    · left
      have hlen : (computeCenteredAxisPositions S F E G (some C)).positions.length =
          (chooseCountGap (S - 2 * E) F G (some C)).1 := by
        rw [centered_eq_of_fit S F E G (some C) h]
        simp
      omega
    · exact Or.inr hgap

/-- Counterexample to claim C2 as stated: for span 40, footprint 1,
clearance 0, minimum gap 30 and cap 1, the trial gap immediately passes the
30 mm safety ceiling and the solver returns 2 positions, exceeding the
cap of 1. -/
theorem axis_cap_counterexample :
    1 < (computeCenteredAxisPositions 40 1 0 30 (some 1)).positions.length := by
  have h30 : countAt 40 1 30 = 2 := by
    have hf : ⌊((40 : ℚ) + 30) / (1 + 30)⌋ = 2 := by norm_num
    unfold countAt
    rw [hf]
    decide
  have h31 : countAt 40 1 31 = 2 := by
    have hf : ⌊((40 : ℚ) + 31) / (1 + 31)⌋ = 2 := by norm_num
    unfold countAt
    rw [hf]
    decide
  have hc : chooseCountGap 40 1 30 (some 1) = (2, 31) := by
    simp only [chooseCountGap]
    rw [h30, capLoop.eq_def]
    norm_num [h31]
  have hlen : (computeCenteredAxisPositions 40 1 0 30 (some 1)).positions.length =
      (chooseCountGap (40 - 2 * 0) 1 30 (some 1)).1 := by
    rw [centered_eq_of_fit 40 1 0 30 (some 1) (by norm_num)]
    simp
  rw [hlen, show (40 : ℚ) - 2 * 0 = 40 by norm_num, hc]
  norm_num

/-- Claim C9: the vertical axis solver returns exactly the centered axis
solver positions shifted by +S/2, with the same length and the same
gapBetween. -/
theorem vertical_refines_centered (S F E G : ℚ) (cap : Option ℕ) :
    (computeVerticalPositions S F E G cap).positions.length =
        (computeCenteredAxisPositions S F E G cap).positions.length ∧
      (∀ i, ∀ hi : i < (computeVerticalPositions S F E G cap).positions.length,
        ∀ hi2 : i < (computeCenteredAxisPositions S F E G cap).positions.length,
        (computeVerticalPositions S F E G cap).positions[i] =
          (computeCenteredAxisPositions S F E G cap).positions[i] + S / 2) ∧
      (computeVerticalPositions S F E G cap).gapBetween =
        (computeCenteredAxisPositions S F E G cap).gapBetween := by
  have hpos : (computeVerticalPositions S F E G cap).positions =
      (computeCenteredAxisPositions S F E G cap).positions.map
        (fun p => p + S / 2) := by
    rw [vertical_eq_map S F E G cap]
  have hgb : (computeVerticalPositions S F E G cap).gapBetween =
      (computeCenteredAxisPositions S F E G cap).gapBetween := by
    rw [vertical_eq_map S F E G cap]
  refine ⟨by rw [hpos]; simp, ?_, hgb⟩
  intro i hi hi2
  rw [List.getElem_of_eq hpos hi, List.getElem_map]

/-- Exact rational value of the IEEE double constant `Math.SQRT2` used by
the source (manifold.ts line 145). -/
def SQRT2 : ℚ := 6369051672525773 / 4503599627370496

/-- `HOLE_SPAN_PLANAR = (HOLE_LONG + HOLE_SHORT) / Math.SQRT2` with
HOLE_LONG = 7 and HOLE_SHORT = 3 (manifold.ts lines 132-146): the
axis-aligned span of the 45°-rotated hole rectangle. -/
def HOLE_SPAN_PLANAR : ℚ := (7 + 3) / SQRT2

/-- Symbolic 2-D cross-sections: polygon from a point list, the rounded
rectangle built by `roundedRectangle` (its arc vertices come from
floating-point trigonometry and are kept symbolic, determined by size and
corner radius), and the in-plane rotate / mirror transforms. -/
inductive CrossSec : Type
  | poly (pts : List (ℚ × ℚ))
  | roundedRect (w h r : ℚ)
  | rot2 (deg : ℚ) (c : CrossSec)
  | mirror2 (ax ay : ℚ) (c : CrossSec)
  deriving DecidableEq, Repr

/-- Symbolic solids: the manifold kernel operations used by the source
(extrude a cross-section from z = 0 to z = h, translate, 3-D rotate,
union `add`, `subtract`, `trimByPlane`). -/
inductive Solid : Type
  | extrude (c : CrossSec) (h : ℚ)
  | translate (x y z : ℚ) (s : Solid)
  | rot3 (x y z : ℚ) (s : Solid)
  | add (a b : Solid)
  | subtract (a b : Solid)
  | trimByPlane (nx ny nz off : ℚ) (s : Solid)
  deriving DecidableEq, Repr

/-- `hole2D` (manifold.ts lines 136-141): a 7 × 3 rectangle centered at the
origin, rotated 45° in-plane. -/
def hole2D : CrossSec :=
  CrossSec.rot2 45 (CrossSec.poly
    [(-(7 : ℚ) / 2, -(3 : ℚ) / 2), ((7 : ℚ) / 2, -(3 : ℚ) / 2),
      ((7 : ℚ) / 2, (3 : ℚ) / 2), (-(7 : ℚ) / 2, (3 : ℚ) / 2)])

/-- `wallPrism = hole2D.extrude(wall + 3)` (manifold.ts line 274). -/
def wallPrism (wall : ℚ) : Solid := Solid.extrude hole2D (wall + 3)

/-- `bottomPrism = hole2D.extrude(bottom + 0.8)` (manifold.ts line 275). -/
def bottomPrism (bottom : ℚ) : Solid := Solid.extrude hole2D (bottom + 0.8)

/-- `leftPrism = wallPrism.rotate(0, 90, 0)` (manifold.ts line 278). -/
def leftPrism (wall : ℚ) : Solid := Solid.rot3 0 90 0 (wallPrism wall)

/-- `rightPrism = wallPrism.rotate(0, -90, 0)` (manifold.ts line 279). -/
def rightPrism (wall : ℚ) : Solid := Solid.rot3 0 (-90) 0 (wallPrism wall)

/-- `frontPrism = wallPrism.rotate(90, 0, 0)` (manifold.ts line 280). -/
def frontPrism (wall : ℚ) : Solid := Solid.rot3 90 0 0 (wallPrism wall)

/-- `xPositionsFront` (manifold.ts lines 247-253): centered positions along
the width, cap 12 (`MAX_AXIS_COUNT_WIDTH`), clearance 3, min gap 4. -/
def xPositionsFront (width : ℚ) : List ℚ :=
  (computeCenteredAxisPositions width HOLE_SPAN_PLANAR 3 4 (some 12)).positions

/-- `yPositionsSide` (manifold.ts lines 254-260): centered positions along
the depth, cap 12 (`MAX_AXIS_COUNT_DEPTH`). -/
def yPositionsSide (depth : ℚ) : List ℚ :=
  (computeCenteredAxisPositions depth HOLE_SPAN_PLANAR 3 4 (some 12)).positions

/-- `zPositions` (manifold.ts lines 261-267): vertical positions along the
height, cap 12 (`MAX_AXIS_COUNT_HEIGHT`). -/
def zPositions (height : ℚ) : List ℚ :=
  (computeVerticalPositions height HOLE_SPAN_PLANAR 3 4 (some 12)).positions

/-- Translation offsets of the left-face hole prisms (manifold.ts lines
289-294): `leftPrism.translate(-width/2 - 1, y, z)` for y in
`yPositionsSide`, z in `zPositions`. -/
def leftHoleOffsets (width depth height : ℚ) : List (ℚ × ℚ × ℚ) :=
  (yPositionsSide depth).flatMap (fun y =>
    (zPositions height).map (fun z => (-width / 2 - 1, y, z)))

/-- Translation offsets of the right-face hole prisms (manifold.ts lines
297-302). -/
def rightHoleOffsets (width depth height : ℚ) : List (ℚ × ℚ × ℚ) :=
  (yPositionsSide depth).flatMap (fun y =>
    (zPositions height).map (fun z => (width / 2 + 1, y, z)))

/-- Translation offsets of the front-face hole prisms (manifold.ts lines
305-310). -/
def frontHoleOffsets (width depth height : ℚ) : List (ℚ × ℚ × ℚ) :=
  (xPositionsFront width).flatMap (fun x =>
    (zPositions height).map (fun z => (x, depth / 2 + 1, z)))

/-- All wall-face hole placements of `createVentHoles`, in source order
(left, then right, then front). -/
def sideHoleOffsets (width depth height : ℚ) : List (ℚ × ℚ × ℚ) :=
  leftHoleOffsets width depth height ++ rightHoleOffsets width depth height ++
    frontHoleOffsets width depth height

/-- `unionAll` (manifold.ts lines 283-286): fold the list with `add`,
`undefined` for the empty list. -/
def unionAll (parts : List Solid) : Option Solid :=
  match parts with
  | [] => none
  | h :: t => some (t.foldl Solid.add h)

/-- The bottom-face cutout of `createVentHoles` (manifold.ts lines
320-343): one large rounded-rectangle hole inset 5 mm from the inner
walls, minus a central 8 mm stability rib; `none` when the inset leaves no
positive area. -/
def bottomUnion (width depth wall bottom radius : ℚ) : Option Solid :=
  let innerRadiusForBottom := max 0 (radius - wall)
  let holeWidth := max 0 (width - 2 * (wall + 5))
  let holeDepth := max 0 (depth - 2 * (wall + 5))
  if 0 < holeWidth ∧ 0 < holeDepth then
    some (Solid.subtract
      (Solid.extrude
        (CrossSec.roundedRect holeWidth holeDepth
          (max 0 (innerRadiusForBottom - 5))) (bottom + 0.8))
      (Solid.extrude
        (CrossSec.poly
          [(-(8 : ℚ) / 2, -holeDepth / 2), ((8 : ℚ) / 2, -holeDepth / 2),
            ((8 : ℚ) / 2, holeDepth / 2), (-(8 : ℚ) / 2, holeDepth / 2)])
        (bottom + 0.8)))
  else none

/-- `createVentHoles` (manifold.ts lines 117-358): per-face unions of the
hole prisms, combined into one solid; when no face produced holes, the
fallback placeholder `bottomPrism.translate(0, 0, -99999)` is returned. -/
def createVentHoles (height width depth wall bottom radius : ℚ) : Solid :=
  let leftU := unionAll ((leftHoleOffsets width depth height).map
    (fun o => Solid.translate o.1 o.2.1 o.2.2 (leftPrism wall)))
  let rightU := unionAll ((rightHoleOffsets width depth height).map
    (fun o => Solid.translate o.1 o.2.1 o.2.2 (rightPrism wall)))
  let frontU := unionAll ((frontHoleOffsets width depth height).map
    (fun o => Solid.translate o.1 o.2.1 o.2.2 (frontPrism wall)))
  let bottomU := bottomUnion width depth wall bottom radius
  let unions := List.reduceOption [leftU, rightU, frontU, bottomU]
  match unions with
  | [] => Solid.translate 0 0 (-99999) (bottomPrism bottom)
  | h :: t => t.foldl Solid.add h

/-- The hollow shell built by `base` before vent holes (manifold.ts lines
369-380): outer rounded-rectangle extrusion minus the inner cavity. -/
def shell (height width depth radius wall bottom : ℚ) : Solid :=
  Solid.subtract
    (Solid.extrude (CrossSec.roundedRect width depth radius) height)
    (Solid.translate 0 0 bottom
      (Solid.extrude
        (CrossSec.roundedRect (width - 2 * wall) (depth - 2 * wall)
          (max 0 (radius - wall)))
        (height - bottom)))

/-- `base` (manifold.ts lines 361-393) parameterized by the outcome of the
vent-hole construction: on success the hole union is subtracted from the
shell, on error (the `catch` branch) the shell is returned unchanged.  The
result type `Solid` (not `Except`) reflects that the error never
propagates out of `base`. -/
def baseWith (height width depth radius wall bottom : ℚ)
    (vent : Except String Solid) : Solid :=
  match vent with
  | Except.ok holeUnion =>
      Solid.subtract (shell height width depth radius wall bottom) holeUnion
  | Except.error _ => shell height width depth radius wall bottom

/-- `base` on the normal (non-throwing) path. -/
def base (height width depth radius wall bottom : ℚ) : Solid :=
  baseWith height width depth radius wall bottom
    (Except.ok (createVentHoles height width depth wall bottom radius))

/-- A sound over-approximation of the z-extent of a solid: `some (lo, hi)`
means every point of the solid has z between lo and hi; `none` means
unknown (3-D rotations are not tracked).  Extrusion spans z from 0 to h,
subtraction and trimming only remove material. -/
def zExtent : Solid → Option (ℚ × ℚ)
  | Solid.extrude _ h => some (min 0 h, max 0 h)
  | Solid.translate _ _ dz s =>
      (zExtent s).map (fun i => (i.1 + dz, i.2 + dz))
  | Solid.rot3 _ _ _ _ => none
  | Solid.add a b =>
      match zExtent a, zExtent b with
      | some i, some j => some (min i.1 j.1, max i.2 j.2)
      | _, _ => none
  | Solid.subtract a _ => zExtent a
  | Solid.trimByPlane _ _ _ _ s => zExtent s

/-- `CLIP_HEIGHT` (manifold.ts line 8). -/
def CLIP_HEIGHT : ℚ := 12

/-- `clipRCrossSection` (manifold.ts lines 82-97): the fixed hook-shaped
clip profile, rotated 180°. -/
def clipRCrossSec : CrossSec :=
  CrossSec.rot2 180 (CrossSec.poly
    [(0.95, 0), (2.45, 0), (2.45, 3.7), (3.05, 4.3), (3.05, 5.9),
      (2.45, 6.5), (0.95, 6.5), (0.95, 0)])

/-- `clips(chamfer)` (manifold.ts lines 102-114): the pair
(clipR, clipL) of extruded clip profiles, trimmed by the 45° plane
`[0, 1, 1]` when `chamfer` is true. -/
def clipsPair (chamfer : Bool) : Solid × Solid :=
  let clipR := Solid.extrude clipRCrossSec CLIP_HEIGHT
  let clipL := Solid.extrude (CrossSec.mirror2 1 0 clipRCrossSec) CLIP_HEIGHT
  if chamfer then
    (Solid.trimByPlane 0 1 1 0 clipR, Solid.trimByPlane 0 1 1 0 clipL)
  else (clipR, clipL)

/-- `N = Math.floor(W / gw + 1)` computed by `box` (manifold.ts lines
404-407) with `W = width - 2*radius - 2*padding`, padding 5, gw 40. -/
def clipN (width radius : ℚ) : ℤ :=
  ⌊(width - 2 * radius - 2 * 5) / 40 + 1⌋

/-- `NV = Math.floor(H / gh + 1)` (manifold.ts lines 413-415) with
`H = height - CLIP_HEIGHT`, gh 40. -/
def clipNV (height : ℚ) : ℤ :=
  ⌊(height - CLIP_HEIGHT) / 40 + 1⌋

/-- `dx = ((-1 * M) / 2) * gw` with `M = N - 1` (manifold.ts lines
408-409). -/
def clipDx (width radius : ℚ) : ℚ :=
  (-1 * ((clipN width radius : ℚ) - 1)) / 2 * 40

/-- The x-offsets `i * gw + dx` of the horizontal clip columns placed by
the loop of `box` (manifold.ts lines 419-427). -/
def clipXOffsets (width radius : ℚ) : List ℚ :=
  (List.range (clipN width radius).toNat).map
    (fun i : ℕ => (i : ℚ) * 40 + clipDx width radius)

/-- All clip placements of `box` (manifold.ts lines 419-427), in loop
order: x-offset `i*gw + dx`, z-offset `j*gh`, chamfered for all but the
bottom level (`j > 0`). -/
def clipPlacements (width height radius : ℚ) : List (ℚ × ℚ × Bool) :=
  (List.range (clipN width radius).toNat).flatMap (fun i =>
    (List.range (clipNV height).toNat).map (fun j =>
      ((i : ℚ) * 40 + clipDx width radius, (j : ℚ) * 40, decide (0 < j))))

/-- `box` (manifold.ts lines 396-430): the base shell with the clip pairs
unioned on at every grid placement (both clips of a pair translated to
`(x, -depth/2, z)`). -/
def boxSolid (height width depth radius wall bottom : ℚ) : Solid :=
  (clipPlacements width height radius).foldl
    (fun res p =>
      Solid.add
        (Solid.add res
          (Solid.translate p.1 (-depth / 2) p.2.1 (clipsPair p.2.2).1))
        (Solid.translate p.1 (-depth / 2) p.2.1 (clipsPair p.2.2).2))
    (base height width depth radius wall bottom)

/-- State of the `ManifoldModule` singleton together with two tasks that
each execute `ManifoldModule.get()` (manifold.ts lines 11-23).  `wasm`
records whether the static field has been assigned; `initCount` counts
invocations of `init(...)`.  A task program counter is 0 before the
`this.wasm !== undefined` check, 1 while suspended on `await init(...)`,
and 2 when finished. -/
structure ManifoldGetState : Type where
  wasm : Bool
  initCount : ℕ
  pcA : ℕ
  pcB : ℕ
  deriving DecidableEq, Repr

/-- One JavaScript run-to-completion step of a single task executing
`ManifoldModule.get()`: at pc 0 the task checks the cached field and, when
it is unset, synchronously invokes `init(...)` and suspends on its await;
at pc 1 the init promise resolves and the task assigns `this.wasm` and
finishes.  Returns (new wasm flag, new init count, new pc). -/
def manifoldGetStep (wasm : Bool) (initCount pc : ℕ) : Bool × ℕ × ℕ :=
  match pc with
  | 0 => if wasm then (wasm, initCount, 2) else (wasm, initCount + 1, 1)
  | 1 => (true, initCount, 2)
  | _ => (wasm, initCount, 2)

/-- Run a schedule of interleaved steps of the two tasks (`false` steps
task A, `true` steps task B). -/
def manifoldGetRun (sched : List Bool) (s : ManifoldGetState) : ManifoldGetState :=
  match sched with
  | [] => s
  | b :: rest =>
      let s2 :=
        if b then
          let r := manifoldGetStep s.wasm s.initCount s.pcB
          { s with wasm := r.1, initCount := r.2.1, pcB := r.2.2 }
        else
          let r := manifoldGetStep s.wasm s.initCount s.pcA
          { s with wasm := r.1, initCount := r.2.1, pcA := r.2.2 }
      manifoldGetRun rest s2

/-- Claim C4: when the vent-hole construction raises an error, `base`
catches it and returns exactly the hollow shell (outer extrusion minus
inner cavity) without vent holes — hence with the same bounding box as the
no-vent shell; the error never propagates out of `base`, whose result type
is a plain solid. -/
theorem base_catches_vent_error (height width depth radius wall bottom : ℚ)
    (e : String) :
    baseWith height width depth radius wall bottom (Except.error e) =
        shell height width depth radius wall bottom ∧
      zExtent (baseWith height width depth radius wall bottom (Except.error e)) =
        zExtent (shell height width depth radius wall bottom) :=
  ⟨rfl, rfl⟩

/-- Claim C5: when all four faces produce zero holes, `createVentHoles`
returns the small placeholder prism translated to z = -99999; its z-extent
then lies strictly below that of the shell (which starts at z = 0), so the
subsequent subtraction cannot remove any shell material. -/
theorem vent_holes_placeholder (height width depth wall bottom radius : ℚ)
    (hleft : leftHoleOffsets width depth height = [])
    (hright : rightHoleOffsets width depth height = [])
    (hfront : frontHoleOffsets width depth height = [])
    (hbottom : bottomUnion width depth wall bottom radius = none)
    (hb0 : 0 ≤ bottom) (hb1 : bottom < 99998) (hh : 0 ≤ height) :
    createVentHoles height width depth wall bottom radius =
        Solid.translate 0 0 (-99999) (bottomPrism bottom) ∧
      ∃ ph sh : ℚ × ℚ,
        zExtent (createVentHoles height width depth wall bottom radius) = some ph ∧
          zExtent (shell height width depth radius wall bottom) = some sh ∧
          ph.2 < sh.1 := by
  have h1 : createVentHoles height width depth wall bottom radius =
      Solid.translate 0 0 (-99999) (bottomPrism bottom) := by
    unfold createVentHoles
    rw [hleft, hright, hfront, hbottom]
    rfl
  refine ⟨h1, ⟨(min 0 (bottom + 0.8) + -99999, max 0 (bottom + 0.8) + -99999),
    (min 0 height, max 0 height), ?_, rfl, ?_⟩⟩
  · rw [h1]
    rfl
  · have hmx : max 0 (bottom + 0.8) = bottom + 0.8 := max_eq_right (by linarith)
    have hmn : min 0 height = 0 := min_eq_left hh
    simp only [hmx, hmn]
    linarith

/-- Witness for C5 at height 10, width 12, depth 12, wall 2, bottom 3,
radius 0: all four faces produce zero holes. -/
theorem vent_holes_placeholder_witness :
    (leftHoleOffsets 12 12 10 = [] ∧ rightHoleOffsets 12 12 10 = [] ∧
        frontHoleOffsets 12 12 10 = [] ∧ bottomUnion 12 12 2 3 0 = none) ∧
      createVentHoles 10 12 12 2 3 0 =
          Solid.translate 0 0 (-99999) (bottomPrism 3) ∧
        ∃ ph sh : ℚ × ℚ,
          zExtent (createVentHoles 10 12 12 2 3 0) = some ph ∧
            zExtent (shell 10 12 12 0 2 3) = some sh ∧ ph.2 < sh.1 := by
  have hspan : (12 : ℚ) - 2 * 3 < HOLE_SPAN_PLANAR := by
    norm_num [HOLE_SPAN_PLANAR, SQRT2]
  have hy : yPositionsSide 12 = [] := by
    unfold yPositionsSide
    rw [centered_empty _ _ _ _ _ hspan]
  have hx : xPositionsFront 12 = [] := by
    unfold xPositionsFront
    rw [centered_empty _ _ _ _ _ hspan]
  have hleft : leftHoleOffsets 12 12 10 = [] := by
    unfold leftHoleOffsets
    rw [hy]
    rfl
  have hright : rightHoleOffsets 12 12 10 = [] := by
    unfold rightHoleOffsets
    rw [hy]
    rfl
  have hfront : frontHoleOffsets 12 12 10 = [] := by
    unfold frontHoleOffsets
    rw [hx]
    rfl
  have hbot : bottomUnion 12 12 2 3 0 = none := by
    unfold bottomUnion
    norm_num
  exact ⟨⟨hleft, hright, hfront, hbot⟩,
    vent_holes_placeholder 10 12 12 2 3 0 hleft hright hfront hbot
      (by norm_num) (by norm_num) (by norm_num)⟩

/-- Claim C6: every wall-face hole prism placed by `createVentHoles` sits
on the left face (x = -width/2 - 1), the right face (x = width/2 + 1) or
the front face (y = depth/2 + 1), and none sits at the back-face mirror
position y = -depth/2 - 1; the back face never receives holes (the bottom
cutout is an untranslated z-extrusion at the origin). -/
theorem back_face_never_perforated (width depth height : ℚ) (hd : 0 < depth) :
    ∀ p ∈ sideHoleOffsets width depth height,
      (p.1 = -width / 2 - 1 ∨ p.1 = width / 2 + 1 ∨ p.2.1 = depth / 2 + 1) ∧
        p.2.1 ≠ -depth / 2 - 1 := by
  have hHSP : 0 ≤ HOLE_SPAN_PLANAR := by
    norm_num [HOLE_SPAN_PLANAR, SQRT2]
  have hFG : (0 : ℚ) < HOLE_SPAN_PLANAR + 4 := by linarith
  have hybound := centered_mem_bounds depth HOLE_SPAN_PLANAR 3 4 (some 12)
    hHSP (by norm_num) hFG
  intro p hp
  rcases List.mem_append.mp hp with hp1 | hpf
  · rcases List.mem_append.mp hp1 with hpl | hpr
    · obtain ⟨y, hy, hpz⟩ := List.mem_flatMap.mp hpl
      obtain ⟨z, _, rfl⟩ := List.mem_map.mp hpz
      have hyb := hybound y hy
      refine ⟨Or.inl rfl, ?_⟩
      intro hcontra
      have : -depth / 2 + 3 ≤ y := by linarith [hyb.1]
      simp only at hcontra
      linarith
    · obtain ⟨y, hy, hpz⟩ := List.mem_flatMap.mp hpr
      obtain ⟨z, _, rfl⟩ := List.mem_map.mp hpz
      have hyb := hybound y hy
      refine ⟨Or.inr (Or.inl rfl), ?_⟩
      intro hcontra
      simp only at hcontra
      linarith [hyb.1]
  · obtain ⟨x, hx, hpz⟩ := List.mem_flatMap.mp hpf
    obtain ⟨z, _, rfl⟩ := List.mem_map.mp hpz
    refine ⟨Or.inr (Or.inr rfl), ?_⟩
    intro hcontra
    simp only at hcontra
    linarith

/-- Witness for C6 at width 80, depth 60, height 52. -/
theorem back_face_never_perforated_witness :
    (0 : ℚ) < 60 ∧
      ∀ p ∈ sideHoleOffsets 80 60 52,
        (p.1 = -80 / 2 - 1 ∨ p.1 = 80 / 2 + 1 ∨ p.2.1 = 60 / 2 + 1) ∧
          p.2.1 ≠ -60 / 2 - 1 :=
  ⟨by norm_num, back_face_never_perforated 80 60 52 (by norm_num)⟩

/-- Claim C7: the horizontal clip-pair count is
⌊(width - 2*cornerRadius - 2*5)/40⌋ + 1 (5 mm padding, 40 mm pitch), and
for width 80, corner radius 6 the placer yields exactly two columns with
x-offsets -20 and 20, symmetric about 0. -/
theorem clip_count_and_symmetry :
    (∀ width radius : ℚ,
        clipN width radius = ⌊(width - 2 * radius - 2 * 5) / 40⌋ + 1) ∧
      clipN 80 6 = 2 ∧ clipXOffsets 80 6 = [-20, 20] ∧
      clipXOffsets 80 6 = ((clipXOffsets 80 6).reverse).map (fun x => -x) := by
  have hN : clipN 80 6 = 2 := by
    unfold clipN
    norm_num
  have hoff : clipXOffsets 80 6 = [-20, 20] := by
    unfold clipXOffsets clipDx
    rw [hN, show Int.toNat 2 = 2 from rfl]
    norm_num [List.range_succ]
  refine ⟨?_, hN, hoff, ?_⟩
  · intro width radius
    unfold clipN
    rw [Int.floor_add_one]
  · rw [hoff]
    norm_num

/-- Claim C10: when width < 2*cornerRadius + 10 the working width is
negative, so the horizontal clip count ⌊W/40 + 1⌋ is at most 0, the clip
placement loop body never executes, and `box` returns the base shell with
no clips unioned onto it. -/
theorem no_clips_when_narrow (height width depth radius wall bottom : ℚ)
    (h : width < 2 * radius + 10) :
    clipN width radius ≤ 0 ∧ clipPlacements width height radius = [] ∧
      boxSolid height width depth radius wall bottom =
        base height width depth radius wall bottom := by
  have hN : clipN width radius ≤ 0 := by
    unfold clipN
    have hx : (width - 2 * radius - 2 * 5) / 40 + 1 < 1 := by
      have h40 : (width - 2 * radius - 2 * 5) / 40 < 0 :=
        div_neg_of_neg_of_pos (by linarith) (by norm_num)
      linarith
    have hfl : ⌊(width - 2 * radius - 2 * 5) / 40 + 1⌋ < 1 :=
      Int.floor_lt.mpr (by exact_mod_cast hx)
    omega
  have hplace : clipPlacements width height radius = [] := by
    unfold clipPlacements
    have h0 : (clipN width radius).toNat = 0 := by omega
    rw [h0]
    rfl
  have hbox : boxSolid height width depth radius wall bottom =
      base height width depth radius wall bottom := by
    unfold boxSolid
    rw [hplace]
    rfl
  exact ⟨hN, hplace, hbox⟩

/-- Witness for C10 at height 52, width 20, depth 60, radius 6, wall 2,
bottom 3 (20 < 2·6 + 10). -/
theorem no_clips_when_narrow_witness :
    (20 : ℚ) < 2 * 6 + 10 ∧
      (clipN 20 6 ≤ 0 ∧ clipPlacements 20 52 6 = [] ∧
        boxSolid 52 20 60 6 2 3 = base 52 20 60 6 2 3) :=
  ⟨by norm_num, no_clips_when_narrow 52 20 60 6 2 3 (by norm_num)⟩

/-- Claim C8 is violated by the code: `ManifoldModule.get` assigns the
static `wasm` field only after `await init(...)` resolves, so under the
concurrent first-use schedule A-check, B-check, A-resume, B-resume both
tasks see the field unset and each invokes `init(...)`: the kernel is
initialized twice even though both callers complete. -/
theorem manifold_get_double_init :
    (manifoldGetRun [false, true, false, true]
        ⟨false, 0, 0, 0⟩).initCount = 2 ∧
      (manifoldGetRun [false, true, false, true] ⟨false, 0, 0, 0⟩).pcA = 2 ∧
      (manifoldGetRun [false, true, false, true] ⟨false, 0, 0, 0⟩).pcB = 2 := by
  decide

end Skapa
